import Mathlib

/-!
Shallow embedding of the VCF validator core
(src/cpp/src/bioformats/vcf/validator.hpp) for formal verification of its
specification.  The `StoreParsePolicy` event handlers, the `ParsingState`
mutation entry points and the value-conversion logic of `handle_body_line`
and `handle_meta_line` are translated directly from the header.  The
Ragel-generated grammar engine (`validator_detail.hpp`) and the entity
constructors (`file_structure.hpp`) are not part of the repository snapshot
and are modelled from the specification where a claim needs them; each such
definition carries a doc comment saying so.

Machine-level conventions:
* `std::string` is `String`, `std::vector<T>` is `List T`.
* `std::map<K, V>` is an association list with key-unique insert/assign
  (`mapAssign`, last write wins, as `operator[]` assignment) and
  `mapEmplace` (first write wins, as `emplace`).
* `std::vector::operator[]` out-of-bounds access is undefined behaviour in
  the C++; it is made explicit as an `undefinedAccess` outcome.
* `std::stoi` / `std::stof` are modelled as total functions returning the
  exception kind they would raise; `float` values are carried as `Rat`
  (plus infinity/NaN markers), since no claim depends on binary rounding.
-/

set_option autoImplicit false

namespace VcfValidator

/-- Modelled from the spec (section 3): `MetaEntry` lives in
`file_structure.hpp`, which is not under `src/`.  It has the three shapes the
spec names: a plain bare value, a scalar `type_id = value`, and a structured
`type_id = <key=value, ...>` carrying a key/value mapping. -/
inductive MetaEntry where
  | plain (value : String)
  | scalar (typeId : String) (value : String)
  | structured (typeId : String) (keyValues : List (String × String))
  deriving Repr, DecidableEq

/-- Value of a parsed floating-point token.  `std::stof` results are carried
exactly as rationals; the infinity and NaN spellings accepted by `strtof`
are kept as markers so that acceptance of the parse matches the C library. -/
inductive FloatVal where
  | num (q : Rat)
  | posInf
  | negInf
  | nan
  deriving Repr, DecidableEq

/-- Modelled from the spec (section 3): `Record` lives in
`file_structure.hpp`, which is not under `src/`.  Its fields are exactly the
constructor arguments `handle_body_line` passes, in the same order. -/
structure Record where
  chromosome : String
  position : Nat
  ids : List String
  referenceAllele : String
  alternateAlleles : List String
  quality : FloatVal
  filters : List String
  info : List (String × String)
  format : List String
  samples : List String
  deriving Repr, DecidableEq

/-- Modelled from the spec (section 3): `Source` owns the version string, the
ordered metadata entries and the sample roster. -/
structure Source where
  version : String
  metaEntries : List MetaEntry
  samples : List String
  deriving Repr, DecidableEq

/-- The mutable parsing context of `validator.hpp` (`struct ParsingState`).
The machine-state word `cs` of the Ragel engine is absent from the snapshot
and is modelled inside `Engine` below; the shared pointers become the owned
values themselves. -/
structure ParsingState where
  n_lines : Nat
  n_columns : Nat
  n_batches : Nat
  m_is_valid : Bool
  source : Source
  records : List Record
  deriving Repr, DecidableEq

/-- `ParsingState::set_version`: store the declared file format version. -/
def ParsingState.set_version (st : ParsingState) (v : String) : ParsingState :=
  { st with source := { st.source with version := v } }

/-- `ParsingState::add_meta`: append one `MetaEntry` in declaration order. -/
def ParsingState.add_meta (st : ParsingState) (m : MetaEntry) : ParsingState :=
  { st with source := { st.source with metaEntries := st.source.metaEntries ++ [m] } }

/-- `ParsingState::add_record`: append one `Record` in file order. -/
def ParsingState.add_record (st : ParsingState) (r : Record) : ParsingState :=
  { st with records := st.records ++ [r] }

/-- `ParsingState::set_samples`: install the sample roster. -/
def ParsingState.set_samples (st : ParsingState) (ss : List String) : ParsingState :=
  { st with source := { st.source with samples := ss } }

/-- The two standard exceptions the `std::stoi` / `std::stof` conversions can
raise (`class ParsingError` wraps only the `invalid_argument` one). -/
inductive CppExc where
  | invalidArgument (what : String)
  | outOfRange (what : String)
  deriving Repr, DecidableEq

/-- The whitespace set `isspace` skips in the C locale, used by `strtol` and
`strtof` before the number. -/
def isSpaceChar (c : Char) : Bool :=
  c = ' ' || c = '\t' || c = '\n' || c = '\r' || c = '\x0b' || c = '\x0c'

/-- Decimal digit run to a natural number. -/
def digitsToNat (ds : List Char) : Nat :=
  ds.foldl (fun acc c => acc * 10 + (c.toNat - 48)) 0

/-- Width of `int` on the reference platform (32-bit `int`). -/
def intBits : Nat := 32

/-- `std::stoi`, i.e. `strtol` restricted to `int`: skip C-locale
whitespace, an optional sign, then at least one decimal digit; with no digit
it raises `invalid_argument`, with a value outside `int` it raises
`out_of_range` (libstdc++ uses the message "stoi" for both). -/
def stoi (s : String) : Except CppExc Int :=
  let cs := s.data.dropWhile isSpaceChar
  let signed : Bool × List Char :=
    match cs with
    | '-' :: rest => (true, rest)
    | '+' :: rest => (false, rest)
    | _ => (false, cs)
  let ds := signed.2.takeWhile Char.isDigit
  if ds.isEmpty then .error (.invalidArgument "stoi")
  else
    let v : Int := if signed.1 then -(digitsToNat ds : Int) else (digitsToNat ds : Int)
    if v < -(2 ^ (intBits - 1) : Int) ∨ (2 ^ (intBits - 1) : Int) - 1 < v then
      .error (.outOfRange "stoi")
    else .ok v

/-- Hexadecimal digit predicate of `strtof`. -/
def isHexDigit (c : Char) : Bool :=
  c.isDigit || ('a' ≤ c && c ≤ 'f') || ('A' ≤ c && c ≤ 'F')

/-- Value of one hexadecimal digit. -/
def hexVal (c : Char) : Nat :=
  if c.isDigit then c.toNat - 48
  else if 'a' ≤ c && c ≤ 'f' then c.toNat - 87
  else if 'A' ≤ c && c ≤ 'F' then c.toNat - 55
  else 0

/-- Hexadecimal digit run to a natural number. -/
def hexToNat (ds : List Char) : Nat :=
  ds.foldl (fun acc c => acc * 16 + hexVal c) 0

/-- Case-insensitive literal prefix match; returns the remaining input. -/
def matchPrefixCI (pre : List Char) (cs : List Char) : Option (List Char) :=
  match pre, cs with
  | [], rest => some rest
  | p :: ps, c :: rest => if c.toLower = p then matchPrefixCI ps rest else none
  | _ :: _, [] => none

/-- Optional exponent group of `strtof` (`e`/`p` marker, optional sign,
digits); an absent or incomplete group contributes exponent 0 and does not
affect acceptance. -/
def parseExpPart (marker : Char) (cs : List Char) : Int :=
  match cs with
  | c :: rest =>
    if c.toLower = marker then
      let signed : Bool × List Char :=
        match rest with
        | '-' :: r => (true, r)
        | '+' :: r => (false, r)
        | _ => (false, rest)
      let ds := signed.2.takeWhile Char.isDigit
      if ds.isEmpty then 0
      else if signed.1 then -(digitsToNat ds : Int) else (digitsToNat ds : Int)
    else 0
  | [] => 0

/-- Exact rational value of a parsed mantissa and exponent:
`sign * mant * expBase ^ e / base ^ fracLen`, assembled with integer
arithmetic only (so that the kernel can evaluate it). -/
def mantissaValue (neg : Bool) (base : Nat) (mant : Nat) (fracLen : Nat)
    (expBase : Nat) (e : Int) : Rat :=
  mkRat ((if neg then -(mant : Int) else (mant : Int)) * ((expBase ^ e.toNat : Nat) : Int))
    (base ^ fracLen * expBase ^ (-e).toNat)

/-- Decimal branch of `strtof`: integer digits, optional fraction, optional
exponent; the conversion succeeds iff the mantissa holds at least one
digit. -/
def decimalParse (neg : Bool) (cs : List Char) : Option FloatVal :=
  let ip := cs.takeWhile Char.isDigit
  let rest := cs.dropWhile Char.isDigit
  let fracSplit : List Char × List Char :=
    match rest with
    | '.' :: r => (r.takeWhile Char.isDigit, r.dropWhile Char.isDigit)
    | _ => ([], rest)
  let fp := fracSplit.1
  if ip.isEmpty && fp.isEmpty then none
  else
    some (.num (mantissaValue neg 10 (digitsToNat (ip ++ fp)) fp.length 10
      (parseExpPart 'e' fracSplit.2)))

/-- Hexadecimal branch of `strtof` after a `0x`/`0X` prefix. -/
def hexParse (neg : Bool) (cs : List Char) : Option FloatVal :=
  let ip := cs.takeWhile isHexDigit
  let rest := cs.dropWhile isHexDigit
  let fracSplit : List Char × List Char :=
    match rest with
    | '.' :: r => (r.takeWhile isHexDigit, r.dropWhile isHexDigit)
    | _ => ([], rest)
  let fp := fracSplit.1
  if ip.isEmpty && fp.isEmpty then none
  else
    some (.num (mantissaValue neg 16 (hexToNat (ip ++ fp)) fp.length 2
      (parseExpPart 'p' fracSplit.2)))

/-- `std::stof`, i.e. `strtof` acceptance: C-locale whitespace, optional
sign, then a decimal number, a `0x` hexadecimal number, or the `inf` / `nan`
spellings; when no conversion can be performed the C++ call raises
`invalid_argument`, modelled as `none`.  (`strtof` range overflow, which
would raise `out_of_range`, concerns values no claim touches and is not
modelled; values are exact rationals.) -/
def stof (s : String) : Option FloatVal :=
  let cs := s.data.dropWhile isSpaceChar
  let signed : Bool × List Char :=
    match cs with
    | '-' :: rest => (true, rest)
    | '+' :: rest => (false, rest)
    | _ => (false, cs)
  let neg := signed.1
  let cs2 := signed.2
  match matchPrefixCI ['i', 'n', 'f'] cs2 with
  | some _ => some (if neg then .negInf else .posInf)
  | none =>
    match matchPrefixCI ['n', 'a', 'n'] cs2 with
    | some _ => some .nan
    | none =>
      match cs2 with
      | '0' :: x :: rest =>
        if x.toLower = 'x' then
          match hexParse neg rest with
          | some v => some v
          | none => decimalParse neg cs2
        else decimalParse neg cs2
      | _ => decimalParse neg cs2

/-- Association-list read, as `std::map::find`. -/
def mapFind {β : Type} (m : List (String × β)) (k : String) : Option β :=
  match m with
  | [] => none
  | (k0, v0) :: rest => if k0 = k then some v0 else mapFind rest k

/-- Association-list write with last-write-wins, as assignment through
`std::map::operator[]`. -/
def mapAssign {β : Type} (m : List (String × β)) (k : String) (v : β) :
    List (String × β) :=
  match m with
  | [] => [(k, v)]
  | (k0, v0) :: rest =>
    if k0 = k then (k0, v) :: rest else (k0, v0) :: mapAssign rest k v

/-- Association-list write with first-write-wins, as `std::map::emplace`. -/
def mapEmplace (m : List (String × String)) (k v : String) :
    List (String × String) :=
  match mapFind m k with
  | some _ => m
  | none => m ++ [(k, v)]

/-- The private state of `StoreParsePolicy` (validator.hpp lines 261-280). -/
structure StoreParsePolicy where
  m_current_token : String
  m_line_typeid : String
  m_grouped_tokens : List String
  m_line_tokens : List (String × List String)
  deriving Repr, DecidableEq

/-- A freshly constructed `StoreParsePolicy` (all members default-empty). -/
def StoreParsePolicy.empty : StoreParsePolicy :=
  { m_current_token := ""
    m_line_typeid := ""
    m_grouped_tokens := []
    m_line_tokens := [] }

/-- Read of `m_line_tokens[k]` as `handle_body_line` performs it:
`std::map::operator[]` default-constructs an empty vector for an absent key
(the insertion side effect is unobservable afterwards, the policy state is
discarded at the newline). -/
def lineGet (p : StoreParsePolicy) (k : String) : List String :=
  (mapFind p.m_line_tokens k).getD []

/-- `StoreParsePolicy::handle_token_begin`: start an empty token. -/
def StoreParsePolicy.handle_token_begin (p : StoreParsePolicy) : StoreParsePolicy :=
  { p with m_current_token := "" }

/-- `StoreParsePolicy::handle_token_char`: append one character. -/
def StoreParsePolicy.handle_token_char (p : StoreParsePolicy) (c : Char) : StoreParsePolicy :=
  { p with m_current_token := p.m_current_token.push c }

/-- `StoreParsePolicy::handle_token_end`: push the token into the group. -/
def StoreParsePolicy.handle_token_end (p : StoreParsePolicy) : StoreParsePolicy :=
  { p with m_grouped_tokens := p.m_grouped_tokens ++ [p.m_current_token] }

/-- `StoreParsePolicy::handle_newline`: clear the current token, the token
group and the per-line column map.  (`m_line_typeid` is not touched.) -/
def StoreParsePolicy.handle_newline (p : StoreParsePolicy) : StoreParsePolicy :=
  { p with m_current_token := "", m_grouped_tokens := [], m_line_tokens := [] }

/-- `StoreParsePolicy::handle_fileformat`: commit the current token as the
declared version. -/
def StoreParsePolicy.handle_fileformat (p : StoreParsePolicy) (st : ParsingState) : ParsingState :=
  st.set_version p.m_current_token

/-- `StoreParsePolicy::handle_meta_typeid()`: stash the current token as the
pending type tag. -/
def StoreParsePolicy.handle_meta_typeid (p : StoreParsePolicy) : StoreParsePolicy :=
  { p with m_line_typeid := p.m_current_token }

/-- `StoreParsePolicy::handle_meta_typeid(type_id)`: stash a supplied type
tag. -/
def StoreParsePolicy.handle_meta_typeid_with (p : StoreParsePolicy) (typeId : String) : StoreParsePolicy :=
  { p with m_line_typeid := typeId }

/-- `StoreParsePolicy::handle_meta_key()`: push the current token. -/
def StoreParsePolicy.handle_meta_key (p : StoreParsePolicy) : StoreParsePolicy :=
  { p with m_grouped_tokens := p.m_grouped_tokens ++ [p.m_current_token] }

/-- `StoreParsePolicy::handle_meta_key(key)`: push a supplied key. -/
def StoreParsePolicy.handle_meta_key_with (p : StoreParsePolicy) (key : String) : StoreParsePolicy :=
  { p with m_grouped_tokens := p.m_grouped_tokens ++ [key] }

/-- `StoreParsePolicy::handle_meta_value`: push the current token. -/
def StoreParsePolicy.handle_meta_value (p : StoreParsePolicy) : StoreParsePolicy :=
  { p with m_grouped_tokens := p.m_grouped_tokens ++ [p.m_current_token] }

/-- `StoreParsePolicy::handle_sample_name`: push the current token. -/
def StoreParsePolicy.handle_sample_name (p : StoreParsePolicy) : StoreParsePolicy :=
  { p with m_grouped_tokens := p.m_grouped_tokens ++ [p.m_current_token] }

/-- `StoreParsePolicy::handle_header_line`: hand the group over as the
sample roster. -/
def StoreParsePolicy.handle_header_line (p : StoreParsePolicy) (st : ParsingState) : ParsingState :=
  st.set_samples p.m_grouped_tokens

/-- Outcome of `handle_meta_line`:  `ok` is normal return with the possibly
extended context, `undefinedAccess` is the out-of-bounds `m_grouped_tokens[0]`
read (undefined behaviour in the C++). -/
inductive MetaOutcome where
  | ok (st : ParsingState)
  | undefinedAccess
  deriving Repr, DecidableEq

/-- The key/value pairing of the structured-entry loop
(`for i = 0; i < size; i += 2` reading slots `i` and `i+1`). -/
def pairUp : List String → List (String × String)
  | k :: v :: rest => (k, v) :: pairUp rest
  | _ => []

/-- The structured-entry map build: `key_values[tokens[i]] = tokens[i+1]`
over the interleaved group, last write wins. -/
def buildKeyValues (toks : List String) : List (String × String) :=
  (pairUp toks).foldl (fun m kv => mapAssign m kv.1 kv.2) []

/-- `StoreParsePolicy::handle_meta_line` (validator.hpp lines 132-156): with
an empty type tag build a Plain entry from slot 0; with exactly one grouped
token build a Scalar entry; with an even group build a Structured entry from
the interleaved key/value pairs; otherwise (odd count greater than one) the
code of the final branch is only the comment `TODO Throw exception` and the
function returns with the context unchanged.  `MetaEntry` construction
itself (the `catch (std::invalid_argument)` wrap) lives in
`file_structure.hpp`, absent from the snapshot; the spec gives it no failure
beyond the odd-shape rule handled here, so it is modelled total. -/
def StoreParsePolicy.handle_meta_line (p : StoreParsePolicy) (st : ParsingState) : MetaOutcome :=
  if p.m_line_typeid = "" then
    match p.m_grouped_tokens.head? with
    | none => .undefinedAccess
    | some v => .ok (st.add_meta (.plain v))
  else if p.m_grouped_tokens.length = 1 then
    match p.m_grouped_tokens.head? with
    | none => .undefinedAccess
    | some v => .ok (st.add_meta (.scalar p.m_line_typeid v))
  else if p.m_grouped_tokens.length % 2 = 0 then
    .ok (st.add_meta (.structured p.m_line_typeid (buildKeyValues p.m_grouped_tokens)))
  else
    .ok st

/-- Outcome of `handle_column_end`: `undefinedAccess` is the out-of-bounds
`m_grouped_tokens[0]` read in the sample branch when the group is empty. -/
inductive ColOutcome where
  | ok (p : StoreParsePolicy)
  | undefinedAccess
  deriving Repr, DecidableEq

/-- The fixed-column switch table of `handle_column_end` (cases 1 to 9);
every other index, including 0, falls to the sample default branch. -/
def fixedColName : Nat → Option String
  | 1 => some "CHROM"
  | 2 => some "POS"
  | 3 => some "ID"
  | 4 => some "REF"
  | 5 => some "ALT"
  | 6 => some "QUAL"
  | 7 => some "FILTER"
  | 8 => some "INFO"
  | 9 => some "FORMAT"
  | _ => none

/-- `StoreParsePolicy::handle_column_end` (validator.hpp lines 170-209):
route the accumulated group into the per-line column map by 1-based column
index; the default branch appends `m_grouped_tokens[0]` to the `SAMPLES`
vector (creating it when absent); in every branch the group is then reset to
a fresh empty vector. -/
def StoreParsePolicy.handle_column_end (p : StoreParsePolicy) (n_columns : Nat) : ColOutcome :=
  match fixedColName n_columns with
  | some name =>
    .ok { p with
            m_line_tokens := mapAssign p.m_line_tokens name p.m_grouped_tokens
            m_grouped_tokens := [] }
  | none =>
    match p.m_grouped_tokens.head? with
    | none => .undefinedAccess
    | some t =>
      .ok { p with
              m_line_tokens := mapAssign p.m_line_tokens "SAMPLES" (lineGet p "SAMPLES" ++ [t])
              m_grouped_tokens := [] }

/-- Outcome of `handle_body_line`: normal return, a thrown `ParsingError`
(the `catch (std::invalid_argument)` rewrap), an uncaught `std::out_of_range`
escaping from `std::stoi`, or an out-of-bounds vector read (undefined
behaviour in the C++). -/
inductive BodyOutcome where
  | ok (st : ParsingState)
  | parsingError (what : String)
  | uncaughtOutOfRange (what : String)
  | undefinedAccess
  deriving Repr, DecidableEq

/-- Width of `size_t` on the reference platform (64-bit). -/
def sizeBits : Nat := 64

/-- `static_cast<size_t>` applied to an `int` value: two's-complement
reinterpretation modulo `2 ^ sizeBits`. -/
def castToSizeT (n : Int) : Nat :=
  (n % (2 ^ sizeBits : Int)).toNat

/-- Character-delimiter split, as `boost::split` with
`boost::is_any_of("=")` and no token compression: every delimiter occurrence
opens a new piece, so the result is never empty and empty pieces are kept. -/
def splitOnChar (sep : Char) : List Char → List (List Char)
  | [] => [[]]
  | c :: rest =>
    match splitOnChar sep rest with
    | [] => [[]]
    | t :: ts => if c = sep then [] :: t :: ts else (c :: t) :: ts

/-- `boost::split(subfields, field, boost::is_any_of("="))`. -/
def splitOnEq (field : String) : List String :=
  (splitOnChar '=' field.data).map List.asString

/-- One iteration of the INFO loop of `handle_body_line`: `boost::split` the
subtoken on `=` (no token compression, so it never yields an empty list),
then `emplace` the first component with the second, or with an empty string
when there was no `=`. -/
def splitInfoField (m : List (String × String)) (field : String) :
    List (String × String) :=
  match splitOnEq field with
  | [] => m
  | [k] => mapEmplace m k ""
  | k :: v :: _ => mapEmplace m k v

/-- The INFO mapping build of `handle_body_line` over the captured INFO
column group. -/
def buildInfo (fields : List String) : List (String × String) :=
  fields.foldl splitInfoField []

/-- `StoreParsePolicy::handle_body_line` (validator.hpp lines 211-253):
convert `POS[0]` with `std::stoi` (an `invalid_argument` is rewrapped as
`ParsingError`, an `out_of_range` escapes), cast it to `size_t`, convert
`QUAL[0]` with `std::stof` falling back to quality 0 on `invalid_argument`,
split the INFO subtokens, and append the assembled `Record`.  The C++
evaluates the `Record` constructor arguments in unspecified order; the
out-of-bounds reads are modelled in source text order, which no claim
distinguishes. -/
def StoreParsePolicy.handle_body_line (p : StoreParsePolicy) (st : ParsingState) : BodyOutcome :=
  match (lineGet p "POS").head? with
  | none => .undefinedAccess
  | some posTok =>
    match stoi posTok with
    | .error (.invalidArgument w) => .parsingError w
    | .error (.outOfRange w) => .uncaughtOutOfRange w
    | .ok n =>
      match (lineGet p "QUAL").head? with
      | none => .undefinedAccess
      | some qualTok =>
        match (lineGet p "CHROM").head?, (lineGet p "REF").head? with
        | some chrom, some ref =>
          .ok (st.add_record
            { chromosome := chrom
              position := castToSizeT n
              ids := lineGet p "ID"
              referenceAllele := ref
              alternateAlleles := lineGet p "ALT"
              quality := match stof qualTok with
                         | some v => v
                         | none => .num 0
              filters := lineGet p "FILTER"
              info := buildInfo (lineGet p "INFO")
              format := lineGet p "FORMAT"
              samples := lineGet p "SAMPLES" })
        | _, _ => .undefinedAccess

/-- The two error-policy strategies of validator.hpp (`AbortErrorPolicy`,
`ReportErrorPolicy`).  Their hooks are invoked only by the grammar engine at
section-level violations; the token-policy handlers are inherited unchanged
by every `Parser<Configuration>`. -/
inductive ErrorPolicyKind where
  | abortPolicy
  | reportPolicy
  deriving Repr, DecidableEq

/-- `handle_body_line` as seen through any `Parser<Configuration>`: the
method is the same `StoreParsePolicy` member for both error policies. -/
def handleBodyLineUnder (_ep : ErrorPolicyKind) (p : StoreParsePolicy)
    (st : ParsingState) : BodyOutcome :=
  p.handle_body_line st

/-- `handle_meta_line` as seen through any `Parser<Configuration>`: the
method is the same `StoreParsePolicy` member for both error policies. -/
def handleMetaLineUnder (_ep : ErrorPolicyKind) (p : StoreParsePolicy)
    (st : ParsingState) : MetaOutcome :=
  p.handle_meta_line st

/-- The initial parsing context: fresh counters, valid, empty `Source` and
record list. -/
def initState : ParsingState :=
  { n_lines := 0
    n_columns := 0
    n_batches := 0
    m_is_valid := true
    source := { version := "", metaEntries := [], samples := [] }
    records := [] }

/-! ### The grammar engine, modelled from the spec

`validator_detail.hpp` (the Ragel-generated `Parser<Configuration>` methods
`parse`, `end` and `parse_buffer`) is not under `src/`; only its
declarations are.  The definitions below are modelled from the spec:
sections 4.6 and 9 describe a resumable machine whose entire position is an
explicit state value in the parsing context, consuming input character by
character so that "a document may be fed in pieces of any size without
re-parsing from the start", and section 4.3 lists the events it must emit.
The model keeps the machine state (section marker plus the partially read
current line) explicitly, and dispatches the section events of the spec at
each newline through the `StoreParsePolicy` handlers taken from the source.
Sample columns are captured as one verbatim token each, and sub-delimiter
tokenization inside columns is not modelled (out of scope per spec section
1).  The engine models the Full configuration (`StoreParsePolicy` +
`ReportErrorPolicy`): a section violation latches `m_is_valid` to false and
scanning continues at the next line.  `n_batches` and `n_columns` are
bookkeeping of the absent Ragel code and are left untouched. -/

/-- Section marker of the modelled machine (the `cs` value of the absent
Ragel engine): the fileformat line, the metadata block, or the body (the
column-header line is recognized inside the metadata block by its single
`#`). -/
inductive VcfSection where
  | fileformatLine
  | metaBlock
  | bodyBlock
  deriving Repr, DecidableEq

/-- Modelled from the spec: the whole resumable state of one
`Parser<FullValidatorCfg>` - section marker, partially read line, parsing
context and token-policy state. -/
structure Engine where
  sect : VcfSection
  lineBuf : String
  st : ParsingState
  pol : StoreParsePolicy
  deriving Repr, DecidableEq

/-- Feed the characters of a token through `handle_token_begin` /
`handle_token_char`, leaving the token current. -/
def captureToken (p : StoreParsePolicy) (s : String) : StoreParsePolicy :=
  s.data.foldl StoreParsePolicy.handle_token_char p.handle_token_begin

/-- Split a captured piece at its first `=`. -/
def splitFirstEq (s : String) : Option (String × String) :=
  match s.splitOn "=" with
  | [] => none
  | [_] => none
  | k :: rest => some (k, String.intercalate "=" rest)

/-- Modelled from the spec (section 4.3): deliver one `key=value` piece of a
structured metadata line as a meta-key event then a meta-value event; a
piece with no `=` is delivered as a key with an empty value. -/
def capturePair (p : StoreParsePolicy) (kv : String) : StoreParsePolicy :=
  match splitFirstEq kv with
  | some (k, v) => ((captureToken p k).handle_meta_key |> fun p2 => (captureToken p2 v).handle_meta_value)
  | none => ((captureToken p kv).handle_meta_key |> fun p2 => (captureToken p2 "").handle_meta_value)

/-- Record the outcome of `handle_meta_line` into the engine: a normal
return installs the new context, the undefined-behaviour outcome is mapped
to a latched invalid flag. -/
def finishMeta (e : Engine) (pol : StoreParsePolicy) : Engine :=
  match pol.handle_meta_line e.st with
  | .ok st2 => { e with st := st2, pol := pol }
  | .undefinedAccess => { e with st := { e.st with m_is_valid := false }, pol := pol }

/-- Modelled from the spec (sections 4.3 and 4.6): one metadata line body
(after the `##`).  A line with no `=` raises only token events (Plain
shape); otherwise the text before the first `=` is the type tag; a
`<...>`-bracketed remainder is delivered as interleaved key/value events,
any other remainder as a single value event; then the meta-line completion
event fires. -/
def processMeta (e : Engine) (body : String) : Engine :=
  match splitFirstEq body with
  | none =>
    finishMeta e ((captureToken e.pol body).handle_token_end)
  | some (tid, rest) =>
    let pol0 := (captureToken e.pol tid).handle_meta_typeid
    if rest.startsWith "<" && rest.endsWith ">" then
      finishMeta e (((rest.drop 1).dropRight 1).splitOn "," |>.foldl capturePair pol0)
    else
      finishMeta e ((captureToken pol0 rest).handle_meta_value)

/-- Modelled from the spec (section 4.3): the column-header line.  Columns
past the nine fixed ones are delivered as sample-name events, then the
header completion event installs the roster. -/
def processHeader (e : Engine) (line : String) : Engine :=
  let pol1 := (line.splitOn "\t").drop 9
    |>.foldl (fun p s => (captureToken p s).handle_sample_name) e.pol
  { e with st := pol1.handle_header_line e.st, pol := pol1, sect := .bodyBlock }

/-- Modelled from the spec (section 4.3): deliver the columns of one body
line, each as one verbatim token followed by a column-end event carrying the
1-based column index. -/
def processBodyColumns (pol : StoreParsePolicy) (cols : List String) :
    StoreParsePolicy × Bool :=
  (cols.foldl
    (fun acc col =>
      match ((captureToken acc.1 col).handle_token_end).handle_column_end acc.2.1 with
      | .ok p2 => (p2, acc.2.1 + 1, acc.2.2)
      | .undefinedAccess => (acc.1, acc.2.1 + 1, true))
    (pol, 1, false)).map id (fun x => x.2)

/-- Modelled from the spec (section 4.3): one body line - column events then
the body-line completion event; a `ParsingError`, escaping exception or
undefined access latches the invalid flag (Report policy continuation). -/
def processBody (e : Engine) (line : String) : Engine :=
  let cb := processBodyColumns e.pol (line.splitOn "\t")
  let e1 : Engine :=
    if cb.2 then { e with st := { e.st with m_is_valid := false }, pol := cb.1 }
    else { e with pol := cb.1 }
  match cb.1.handle_body_line e1.st with
  | .ok st2 => { e1 with st := st2 }
  | _ => { e1 with st := { e1.st with m_is_valid := false } }

/-- Modelled from the spec (sections 4.3 and 4.6): dispatch one completed
line by section - the fileformat declaration, then metadata / column-header
lines, then body lines - and fire the newline event, which resets the
per-line policy state and advances the line counter. -/
def processLine (e : Engine) (line : String) : Engine :=
  let e1 : Engine :=
    match e.sect with
    | .fileformatLine =>
      if line.startsWith "##fileformat=" then
        let pol1 := captureToken e.pol (line.drop 13)
        { e with st := pol1.handle_fileformat e.st, pol := pol1, sect := .metaBlock }
      else
        { e with st := { e.st with m_is_valid := false }, sect := .metaBlock }
    | .metaBlock =>
      if line.startsWith "##" then processMeta e (line.drop 2)
      else if line.startsWith "#" then processHeader e line
      else { e with st := { e.st with m_is_valid := false } }
    | .bodyBlock => processBody e line
  { e1 with
      pol := e1.pol.handle_newline
      st := { e1.st with n_lines := e1.st.n_lines + 1 }
      lineBuf := "" }

/-- Modelled from the spec (section 4.6): the per-character transition of
the resumable machine - buffer a character, or dispatch the buffered line at
a newline. -/
def Engine.feedChar (e : Engine) (c : Char) : Engine :=
  if c = '\n' then processLine e e.lineBuf
  else { e with lineBuf := e.lineBuf.push c }

/-- Run the machine over a list of characters. -/
def Engine.feedChars (e : Engine) (cs : List Char) : Engine :=
  cs.foldl Engine.feedChar e

/-- `Parser::parse(text)`: feed one chunk, resuming from the saved state. -/
def Engine.parse (e : Engine) (s : String) : Engine :=
  e.feedChars s.data

/-- `Parser::end()`: flush a buffered final line with no trailing newline
and finalize. -/
def Engine.finish (e : Engine) : Engine :=
  if e.lineBuf = "" then e else processLine e e.lineBuf

/-- A freshly constructed `Parser<FullValidatorCfg>`. -/
def Engine.start : Engine :=
  { sect := .fileformatLine, lineBuf := "", st := initState, pol := .empty }

/-- Feed a document as a sequence of chunks and finalize. -/
def runChunks (chunks : List String) : Engine :=
  (chunks.foldl Engine.parse Engine.start).finish

/-! ### Spec-side comparison definitions and concrete instances -/

/-- The amended reading of the INFO split (spec-side definition, to be
compared with the loop of `handle_body_line`): one INFO subtoken contributes
the text before the first `=` as key, and as value the text between the
first and the second `=` (empty when there is no `=`); a subtoken whose
split is empty contributes nothing (unreachable for `boost::split`). -/
def specInfoPair (field : String) : Option (String × String) :=
  match splitOnEq field with
  | [] => none
  | [k] => some (k, "")
  | k :: v :: _ => some (k, v)

/-- The nine fixed column names of the claim precondition. -/
def fixedColumnNames : List String :=
  ["CHROM", "POS", "ID", "REF", "ALT", "QUAL", "FILTER", "INFO", "FORMAT"]

/-- The claimed totality precondition: a column-end event was delivered for
each of the nine fixed columns with at least one captured token. -/
def allNineCaptured (p : StoreParsePolicy) : Bool :=
  fixedColumnNames.all (fun name => !(lineGet p name).isEmpty)

/-- Policy state after a metadata line with type tag INFO and the odd
(count 3 > 1) captured token group. -/
def oddMetaPolicy : StoreParsePolicy :=
  { m_current_token := ""
    m_line_typeid := "INFO"
    m_grouped_tokens := ["k", "v", "x"]
    m_line_tokens := [] }

/-- Policy state whose pending meta type tag is INFO. -/
def typedMetaPolicy : StoreParsePolicy :=
  StoreParsePolicy.empty.handle_meta_typeid_with "INFO"

/-- Body-line state with the QUAL token `.` (and the other indexed columns
present). -/
def qualDotPolicy : StoreParsePolicy :=
  { m_current_token := ""
    m_line_typeid := ""
    m_grouped_tokens := []
    m_line_tokens := [("CHROM", ["20"]), ("POS", ["14370"]), ("REF", ["G"]), ("QUAL", ["."])] }

/-- The record `handle_body_line` builds from `qualDotPolicy`. -/
def qualDotRecord : Record :=
  { chromosome := "20"
    position := 14370
    ids := []
    referenceAllele := "G"
    alternateAlleles := []
    quality := .num 0
    filters := []
    info := []
    format := []
    samples := [] }

/-- Body-line state whose POS token ("abc") admits no integer conversion. -/
def posBadPolicy : StoreParsePolicy :=
  { m_current_token := ""
    m_line_typeid := ""
    m_grouped_tokens := []
    m_line_tokens := [("POS", ["abc"])] }

/-- Body-line state with an INFO subtoken holding two `=` characters. -/
def infoCexPolicy : StoreParsePolicy :=
  { m_current_token := ""
    m_line_typeid := ""
    m_grouped_tokens := []
    m_line_tokens := [("CHROM", ["20"]), ("POS", ["14370"]), ("REF", ["G"]),
                      ("QUAL", ["29"]), ("INFO", ["K=a=b"])] }

/-- The record `handle_body_line` builds from `infoCexPolicy`: the INFO
value keeps only the text between the first and the second `=`. -/
def infoCexRecord : Record :=
  { chromosome := "20"
    position := 14370
    ids := []
    referenceAllele := "G"
    alternateAlleles := []
    quality := .num 29
    filters := []
    info := [("K", "a")]
    format := []
    samples := [] }

/-- Policy state about to close a fixed column (group captured for POS). -/
def colFixedPolicy : StoreParsePolicy :=
  { m_current_token := ""
    m_line_typeid := ""
    m_grouped_tokens := ["14370"]
    m_line_tokens := [] }

/-- Policy state about to close a sample column (one verbatim token), with
one sample already collected. -/
def colSamplePolicy : StoreParsePolicy :=
  { m_current_token := ""
    m_line_typeid := ""
    m_grouped_tokens := ["0|0"]
    m_line_tokens := [("SAMPLES", ["1|0"])] }

/-- Policy state for a metadata line with no type tag and one bare value. -/
def metaPlainPolicy : StoreParsePolicy :=
  { m_current_token := ""
    m_line_typeid := ""
    m_grouped_tokens := ["pipeline-v1"]
    m_line_tokens := [] }

/-- Policy state for a `type_id = value` metadata line. -/
def metaScalarPolicy : StoreParsePolicy :=
  { m_current_token := ""
    m_line_typeid := "source"
    m_grouped_tokens := ["1kg"]
    m_line_tokens := [] }

/-- Policy state for a structured metadata line whose key `k` is written
twice. -/
def metaStructPolicy : StoreParsePolicy :=
  { m_current_token := ""
    m_line_typeid := "INFO"
    m_grouped_tokens := ["k", "v1", "k", "v2"]
    m_line_tokens := [] }

/-- Body-line state where only the four indexed columns are present: the
other five fixed columns were never delivered. -/
def fourColPolicy : StoreParsePolicy :=
  { m_current_token := ""
    m_line_typeid := ""
    m_grouped_tokens := []
    m_line_tokens := [("CHROM", ["20"]), ("POS", ["7"]), ("REF", ["G"]), ("QUAL", ["."])] }

/-- The record `handle_body_line` builds from `fourColPolicy`. -/
def fourColRecord : Record :=
  { chromosome := "20"
    position := 7
    ids := []
    referenceAllele := "G"
    alternateAlleles := []
    quality := .num 0
    filters := []
    info := []
    format := []
    samples := [] }

/-- Body-line state with every one of the nine fixed columns captured with
one token. -/
def nineColPolicy : StoreParsePolicy :=
  { m_current_token := ""
    m_line_typeid := ""
    m_grouped_tokens := []
    m_line_tokens := [("CHROM", ["20"]), ("POS", ["14370"]), ("ID", ["rs81"]),
                      ("REF", ["G"]), ("ALT", ["A"]), ("QUAL", ["29"]),
                      ("FILTER", ["PASS"]), ("INFO", ["DP=14"]), ("FORMAT", ["GT"])] }

/-- Body-line state with the negative POS token `-5`. -/
def negPosPolicy : StoreParsePolicy :=
  { m_current_token := ""
    m_line_typeid := ""
    m_grouped_tokens := []
    m_line_tokens := [("CHROM", ["20"]), ("POS", ["-5"]), ("REF", ["G"]), ("QUAL", ["29"])] }

/-! ### Helper lemmas about the map embeddings -/

theorem mapFind_assign {β : Type} (m : List (String × β)) (k : String) (v : β)
    (k2 : String) :
    mapFind (mapAssign m k v) k2 = if k = k2 then some v else mapFind m k2 := by
  induction m with
  | nil => simp [mapAssign, mapFind]
  | cons kv rest ih =>
    obtain ⟨k0, v0⟩ := kv
    by_cases h0 : k0 = k
    · subst h0
      by_cases h2 : k0 = k2 <;> simp [mapAssign, mapFind, h2]
    · by_cases h2 : k0 = k2
      · subst h2
        simp [mapAssign, mapFind, h0, show ¬ k = k0 from fun h => h0 h.symm]
      · simp [mapAssign, mapFind, h0, h2, ih]

theorem keys_mapAssign_subset {β : Type} (m : List (String × β)) (k : String)
    (v : β) (a : String) :
    a ∈ (mapAssign m k v).map Prod.fst ↔ a ∈ m.map Prod.fst ∨ a = k := by
  induction m with
  | nil => simp [mapAssign]
  | cons kv rest ih =>
    obtain ⟨k0, v0⟩ := kv
    by_cases h0 : k0 = k
    · subst h0
      simp [mapAssign, List.mem_cons]
      tauto
    · simp only [mapAssign, h0, if_false, List.map_cons, List.mem_cons, ih]
      tauto

theorem nodup_keys_mapAssign {β : Type} (m : List (String × β)) (k : String)
    (v : β) (h : (m.map Prod.fst).Nodup) :
    ((mapAssign m k v).map Prod.fst).Nodup := by
  induction m with
  | nil => simp [mapAssign]
  | cons kv rest ih =>
    obtain ⟨k0, v0⟩ := kv
    simp only [List.map_cons, List.nodup_cons] at h
    by_cases h0 : k0 = k
    · subst h0
      simpa [mapAssign, List.nodup_cons] using h
    · simp only [mapAssign, h0, if_false, List.map_cons, List.nodup_cons]
      refine ⟨fun hmem => ?_, ih h.2⟩
      rcases (keys_mapAssign_subset rest k v k0).mp hmem with hin | heq
      · exact h.1 hin
      · exact h0 heq

theorem nodup_keys_assignFold (pairs : List (String × String))
    (m0 : List (String × String)) (h : (m0.map Prod.fst).Nodup) :
    (((pairs.foldl (fun m kv => mapAssign m kv.1 kv.2) m0)).map Prod.fst).Nodup := by
  induction pairs generalizing m0 with
  | nil => simpa using h
  | cons kv rest ih =>
    exact ih (mapAssign m0 kv.1 kv.2) (nodup_keys_mapAssign m0 kv.1 kv.2 h)

theorem mapFind_assignFold (pairs : List (String × String))
    (m0 : List (String × String)) (k : String) :
    mapFind (pairs.foldl (fun m kv => mapAssign m kv.1 kv.2) m0) k =
      ((pairs.reverse.find? (fun kv => kv.1 == k)).map Prod.snd).or (mapFind m0 k) := by
  induction pairs generalizing m0 with
  | nil => simp
  | cons kv rest ih =>
    obtain ⟨k0, v0⟩ := kv
    simp only [List.foldl_cons, ih, List.reverse_cons, List.find?_append]
    by_cases h0 : k0 = k
    · subst h0
      cases hfind : rest.reverse.find? (fun kv => kv.1 == k0) with
      | none => simp [mapFind_assign, Option.or]
      | some kv2 => simp [Option.or]
    · cases hfind : rest.reverse.find? (fun kv => kv.1 == k) with
      | none => simp [mapFind_assign, h0, Option.or, List.find?_cons,
                      show (k0 == k) = false from beq_false_of_ne h0]
      | some kv2 => simp [Option.or]

theorem mapFind_append {β : Type} (m1 m2 : List (String × β)) (k : String) :
    mapFind (m1 ++ m2) k = (mapFind m1 k).or (mapFind m2 k) := by
  induction m1 with
  | nil => simp [mapFind, Option.or]
  | cons kv rest ih =>
    obtain ⟨k0, v0⟩ := kv
    by_cases h0 : k0 = k <;> simp [mapFind, h0, ih, Option.or]

theorem mapFind_splitInfoField (m : List (String × String)) (f : String)
    (k : String) :
    mapFind (splitInfoField m f) k =
      (mapFind m k).or
        (match specInfoPair f with
         | some kv => if kv.1 = k then some kv.2 else none
         | none => none) := by
  have hemp : ∀ (k0 v0 : String),
      mapFind (mapEmplace m k0 v0) k =
        (mapFind m k).or (if k0 = k then some v0 else none) := by
    intro k0 v0
    unfold mapEmplace
    cases h0 : mapFind m k0 with
    | some w =>
      by_cases hk : k0 = k
      · subst hk
        simp [h0, Option.or]
      · cases hmk : mapFind m k with
        | some w2 => simp [Option.or, hk]
        | none => simp [Option.or, hk]
    | none =>
      rw [mapFind_append]
      by_cases hk : k0 = k <;> simp [mapFind, hk]
  unfold splitInfoField specInfoPair
  cases hsplit : splitOnEq f with
  | nil => simp [Option.or_none]
  | cons a rest =>
    cases rest with
    | nil => simpa using hemp a ""
    | cons b rest2 => simpa using hemp a b

theorem mapFind_buildInfo_general (fields : List String)
    (m : List (String × String)) (k : String) :
    mapFind (fields.foldl splitInfoField m) k =
      (mapFind m k).or
        (((fields.filterMap specInfoPair).find? (fun kv => kv.1 == k)).map Prod.snd) := by
  induction fields generalizing m with
  | nil => simp [Option.or_none]
  | cons f rest ih =>
    simp only [List.foldl_cons, ih, List.filterMap_cons]
    cases hsp : specInfoPair f with
    | none => rw [mapFind_splitInfoField, hsp, Option.or_none]
    | some kv =>
      rw [mapFind_splitInfoField, hsp]
      simp only [List.find?_cons]
      by_cases hk : kv.1 = k
      · cases hmk : mapFind m k with
        | some w => simp [Option.or, hk]
        | none => simp [Option.or, hk]
      · simp [Option.or_assoc, hk, show (kv.1 == k) = false from beq_false_of_ne hk]

/-! ### Claim theorems -/

/-- C1: under both error policies, a metadata line whose captured token
group has odd length 3 > 1 (with type tag INFO) does NOT raise a parsing
error: `handle_meta_line` returns normally with the parsing context
unchanged (no entry added), because the odd branch of the source holds only
the comment `TODO Throw exception`.  This evaluates the code at the failing
input of the claim. -/
theorem odd_meta_line_silently_dropped :
    handleMetaLineUnder .reportPolicy oddMetaPolicy initState = .ok initState
  ∧ handleMetaLineUnder .abortPolicy oddMetaPolicy initState = .ok initState
  ∧ oddMetaPolicy.m_grouped_tokens.length % 2 = 1
  ∧ 1 < oddMetaPolicy.m_grouped_tokens.length
  ∧ oddMetaPolicy.m_line_typeid ≠ "" := by
  decide

/-- C2 counterexample: `handle_newline` does not clear the pending meta type
tag, and the tag captured on one line changes the shape classification of
the next metadata line: after a line set the tag to INFO, a following plain
metadata line (one bare value token `x`) is classified Scalar, while the
same line from a fresh policy is classified Plain. -/
theorem meta_typeid_survives_newline_cex :
    (typedMetaPolicy.handle_newline).m_line_typeid = "INFO"
  ∧ (((typedMetaPolicy.handle_newline.handle_token_begin.handle_token_char
        'x').handle_meta_value).handle_meta_line initState
      = .ok (initState.add_meta (.scalar "INFO" "x")))
  ∧ (((StoreParsePolicy.empty.handle_token_begin.handle_token_char
        'x').handle_meta_value).handle_meta_line initState
      = .ok (initState.add_meta (.plain "x")))
  ∧ MetaEntry.scalar "INFO" "x" ≠ MetaEntry.plain "x" := by
  decide

/-- C2 amended: `handle_newline` clears the current token buffer, the
grouped-token list and the per-line column map - so none of those three can
leak across lines, and two policies agreeing on the pending meta type tag
are indistinguishable after a newline - but it leaves `m_line_typeid`
untouched. -/
theorem handle_newline_clears_all_but_typeid (p q : StoreParsePolicy)
    (h : p.m_line_typeid = q.m_line_typeid) :
    p.handle_newline
      = { m_current_token := ""
          m_line_typeid := p.m_line_typeid
          m_grouped_tokens := []
          m_line_tokens := [] }
  ∧ p.handle_newline = q.handle_newline := by
  constructor
  · rfl
  · simp [StoreParsePolicy.handle_newline, h]

/-- Witness for C2's amended theorem at concrete states differing in every
field except the type tag. -/
theorem handle_newline_clears_all_but_typeid_witness :
    ({ m_current_token := "tok"
       m_line_typeid := "FILTER"
       m_grouped_tokens := ["a", "b"]
       m_line_tokens := [("CHROM", ["c"])] } : StoreParsePolicy).handle_newline
      = { m_current_token := ""
          m_line_typeid := "FILTER"
          m_grouped_tokens := []
          m_line_tokens := [] }
  ∧ ({ m_current_token := "tok"
       m_line_typeid := "FILTER"
       m_grouped_tokens := ["a", "b"]
       m_line_tokens := [("CHROM", ["c"])] } : StoreParsePolicy).handle_newline
      = ({ m_current_token := "zz"
           m_line_typeid := "FILTER"
           m_grouped_tokens := []
           m_line_tokens := [("POS", ["9"])] } : StoreParsePolicy).handle_newline :=
  ⟨(handle_newline_clears_all_but_typeid _
      { m_current_token := "zz"
        m_line_typeid := "FILTER"
        m_grouped_tokens := []
        m_line_tokens := [("POS", ["9"])] } rfl).1,
   (handle_newline_clears_all_but_typeid _ _ rfl).2⟩

/-- C4 counterexample: the INFO subtoken `K=a=b` is split by
`boost::split` into three pieces and only the second is kept as the value:
the built record maps `K` to `a`, not to `a=b`. -/
theorem info_value_not_tail_after_first_eq_cex :
    infoCexPolicy.handle_body_line initState
      = .ok (initState.add_record infoCexRecord)
  ∧ mapFind infoCexRecord.info "K" = some "a"
  ∧ mapFind infoCexRecord.info "K" ≠ some "a=b" := by
  decide

/-- C4 amended: the INFO mapping keeps, for each subtoken, the text before
the first `=` as key and the text between the first and the second `=` as
value (empty when there is no `=`); on duplicate keys the first written
value wins (`std::map::emplace`).  Stated as: lookup in the built mapping
agrees with the first subtoken, in column order, whose key part matches. -/
theorem info_mapping_splits_on_eq (fields : List String) (k : String) :
    mapFind (buildInfo fields) k =
      ((fields.filterMap specInfoPair).find? (fun kv => kv.1 == k)).map Prod.snd := by
  have h := mapFind_buildInfo_general fields [] k
  simpa [buildInfo, mapFind, Option.or] using h

/-- C9 counterexample: `handle_body_line` is total on a line where only the
four indexed columns (CHROM, POS, REF, QUAL) were captured - it returns a
record - even though the nine-fixed-columns precondition of the claim fails,
so the precondition is not necessary for in-bounds execution. -/
theorem body_line_total_without_nine_cex :
    allNineCaptured fourColPolicy = false
  ∧ fourColPolicy.handle_body_line initState
      = .ok (initState.add_record fourColRecord)
  ∧ fourColPolicy.handle_body_line initState ≠ .undefinedAccess := by
  decide

/-- C3: for every body line whose QUAL token admits no float conversion
(`std::stof` raises `invalid_argument`, modelled `stof = none`),
`handle_body_line` raises nothing for the quality field: the record is built
and appended with quality 0, the other fields coming from the captured
columns unchanged. -/
theorem unparsable_qual_yields_zero (p : StoreParsePolicy) (st : ParsingState)
    (chrom posTok ref qualTok : String) (n : Int)
    (hc : (lineGet p "CHROM").head? = some chrom)
    (hp : (lineGet p "POS").head? = some posTok)
    (hr : (lineGet p "REF").head? = some ref)
    (hq : (lineGet p "QUAL").head? = some qualTok)
    (hn : stoi posTok = .ok n)
    (hs : stof qualTok = none) :
    p.handle_body_line st = .ok (st.add_record
      { chromosome := chrom
        position := castToSizeT n
        ids := lineGet p "ID"
        referenceAllele := ref
        alternateAlleles := lineGet p "ALT"
        quality := .num 0
        filters := lineGet p "FILTER"
        info := buildInfo (lineGet p "INFO")
        format := lineGet p "FORMAT"
        samples := lineGet p "SAMPLES" }) := by
  unfold StoreParsePolicy.handle_body_line
  simp only [hp, hn, hq, hc, hr, hs]

/-- Witness for C3 at the QUAL token `.`. -/
theorem unparsable_qual_yields_zero_witness :
    qualDotPolicy.handle_body_line initState
      = .ok (initState.add_record qualDotRecord) := by
  have h := unparsable_qual_yields_zero qualDotPolicy initState "20" "14370" "G" "."
    14370 (by decide) (by decide) (by decide) (by decide) (by rfl) (by decide)
  exact h.trans (by decide)

/-- C5: for every body line whose POS token admits no integer conversion
(`std::stoi` raises `invalid_argument`), `handle_body_line` raises the one
uniform `ParsingError` carrying the cause's message, under either error
policy. -/
theorem unparsable_pos_raises_parsing_error (ep : ErrorPolicyKind)
    (p : StoreParsePolicy) (st : ParsingState) (posTok w : String)
    (hp : (lineGet p "POS").head? = some posTok)
    (hs : stoi posTok = .error (.invalidArgument w)) :
    handleBodyLineUnder ep p st = .parsingError w := by
  unfold handleBodyLineUnder StoreParsePolicy.handle_body_line
  simp only [hp, hs]

/-- Witness for C5 at the POS token `abc`, under both error policies. -/
theorem unparsable_pos_raises_parsing_error_witness :
    handleBodyLineUnder .abortPolicy posBadPolicy initState = .parsingError "stoi"
  ∧ handleBodyLineUnder .reportPolicy posBadPolicy initState = .parsingError "stoi" :=
  ⟨unparsable_pos_raises_parsing_error .abortPolicy posBadPolicy initState "abc" "stoi"
      (by decide) (by rfl),
   unparsable_pos_raises_parsing_error .reportPolicy posBadPolicy initState "abc" "stoi"
      (by decide) (by rfl)⟩

/-- C9 amended: nonempty captured groups for the four indexed columns CHROM,
POS, REF and QUAL suffice for every container access of `handle_body_line`
to be in bounds (the remaining five fixed columns are read whole and default
to empty through the map); the nine-column precondition of the claim is
sufficient but, by the counterexample, not necessary. -/
theorem body_line_in_bounds_of_four_columns (p : StoreParsePolicy)
    (st : ParsingState)
    (hc : lineGet p "CHROM" ≠ []) (hp : lineGet p "POS" ≠ [])
    (hr : lineGet p "REF" ≠ []) (hq : lineGet p "QUAL" ≠ []) :
    p.handle_body_line st ≠ .undefinedAccess := by
  obtain ⟨posTok, postl, hpx⟩ := List.exists_cons_of_ne_nil hp
  obtain ⟨chrom, chromtl, hcx⟩ := List.exists_cons_of_ne_nil hc
  obtain ⟨ref, reftl, hrx⟩ := List.exists_cons_of_ne_nil hr
  obtain ⟨qualTok, qualtl, hqx⟩ := List.exists_cons_of_ne_nil hq
  have hp2 : (lineGet p "POS").head? = some posTok := by rw [hpx]; rfl
  have hc2 : (lineGet p "CHROM").head? = some chrom := by rw [hcx]; rfl
  have hr2 : (lineGet p "REF").head? = some ref := by rw [hrx]; rfl
  have hq2 : (lineGet p "QUAL").head? = some qualTok := by rw [hqx]; rfl
  unfold StoreParsePolicy.handle_body_line
  simp only [hp2, hc2, hr2, hq2]
  cases hn : stoi posTok with
  | ok n => simp
  | error e => cases e <;> simp

/-- Witness for C9's amended theorem: with all nine columns captured (hence
in particular the four indexed ones), no access is out of bounds. -/
theorem body_line_in_bounds_of_four_columns_witness :
    nineColPolicy.handle_body_line initState ≠ .undefinedAccess :=
  body_line_in_bounds_of_four_columns nineColPolicy initState
    (by decide) (by decide) (by decide) (by decide)

/-- C10: a POS token parsing to a negative integer `n` raises nothing: the
record is appended with its position equal to `n` reduced modulo `2 ^ 64`
(the two's-complement `static_cast<size_t>` of the 64-bit platform), so
non-negativity of positions is not enforced. -/
theorem negative_pos_wraps_mod_word (p : StoreParsePolicy) (st : ParsingState)
    (chrom posTok ref qualTok : String) (n : Int)
    (hc : (lineGet p "CHROM").head? = some chrom)
    (hp : (lineGet p "POS").head? = some posTok)
    (hr : (lineGet p "REF").head? = some ref)
    (hq : (lineGet p "QUAL").head? = some qualTok)
    (hn : stoi posTok = .ok n)
    (_hneg : n < 0) :
    p.handle_body_line st = .ok (st.add_record
      { chromosome := chrom
        position := castToSizeT n
        ids := lineGet p "ID"
        referenceAllele := ref
        alternateAlleles := lineGet p "ALT"
        quality := match stof qualTok with
                   | some v => v
                   | none => .num 0
        filters := lineGet p "FILTER"
        info := buildInfo (lineGet p "INFO")
        format := lineGet p "FORMAT"
        samples := lineGet p "SAMPLES" })
  ∧ (castToSizeT n : Int) % 2 ^ sizeBits = n % 2 ^ sizeBits
  ∧ castToSizeT n < 2 ^ sizeBits := by
  have h2i : (2 : Int) ^ sizeBits = 18446744073709551616 := by norm_num [sizeBits]
  have h2n : (2 : Nat) ^ sizeBits = 18446744073709551616 := by norm_num [sizeBits]
  refine ⟨?_, ?_, ?_⟩
  · unfold StoreParsePolicy.handle_body_line
    simp only [hp, hn, hq, hc, hr]
  · unfold castToSizeT
    rw [h2i]
    omega
  · unfold castToSizeT
    rw [h2i, h2n]
    omega

/-- Witness for C10 at the POS token `-5`: the stored position is
`2 ^ 64 - 5`. -/
theorem negative_pos_wraps_mod_word_witness :
    negPosPolicy.handle_body_line initState = .ok (initState.add_record
      { chromosome := "20"
        position := castToSizeT (-5)
        ids := []
        referenceAllele := "G"
        alternateAlleles := []
        quality := .num 29
        filters := []
        info := []
        format := []
        samples := [] })
  ∧ (castToSizeT (-5) : Int) % 2 ^ sizeBits = (-5) % 2 ^ sizeBits
  ∧ castToSizeT (-5) = 18446744073709551611 := by
  have h := negative_pos_wraps_mod_word negPosPolicy initState "20" "-5" "G" "29" (-5)
    (by decide) (by decide) (by decide) (by decide) (by rfl) (by decide)
  exact ⟨h.1.trans (by decide), h.2.1, by decide⟩

theorem fixedColName_eq_none {n : Nat} (h : 10 ≤ n) : fixedColName n = none := by
  obtain ⟨m, rfl⟩ : ∃ m, n = m + 10 := ⟨n - 10, by omega⟩
  rfl

/-- C6: a column-end event routes the captured group by 1-based index: for
indices 1 to 9 the whole group is stored under the fixed column name given
by the switch table (1 CHROM ... 9 FORMAT, the table being total on 1..9),
leaving every other column entry unchanged; for an index of at least 10
whose group is the single verbatim column text, exactly that one string is
appended to the SAMPLES list, leaving the other entries unchanged; in both
cases the group is reset to empty. -/
theorem column_end_routing (n : Nat) (p : StoreParsePolicy) (t : String) :
    (∀ name, fixedColName n = some name →
        p.handle_column_end n
          = .ok { p with
                    m_line_tokens := mapAssign p.m_line_tokens name p.m_grouped_tokens
                    m_grouped_tokens := [] }
      ∧ mapFind (mapAssign p.m_line_tokens name p.m_grouped_tokens) name
          = some p.m_grouped_tokens
      ∧ (∀ k, k ≠ name →
          mapFind (mapAssign p.m_line_tokens name p.m_grouped_tokens) k
            = mapFind p.m_line_tokens k))
  ∧ (1 ≤ n → n ≤ 9 → (fixedColName n).isSome = true)
  ∧ (10 ≤ n → p.m_grouped_tokens = [t] →
        p.handle_column_end n
          = .ok { p with
                    m_line_tokens :=
                      mapAssign p.m_line_tokens "SAMPLES" (lineGet p "SAMPLES" ++ [t])
                    m_grouped_tokens := [] }
      ∧ mapFind (mapAssign p.m_line_tokens "SAMPLES" (lineGet p "SAMPLES" ++ [t])) "SAMPLES"
          = some (lineGet p "SAMPLES" ++ [t])
      ∧ (∀ k, k ≠ "SAMPLES" →
          mapFind (mapAssign p.m_line_tokens "SAMPLES" (lineGet p "SAMPLES" ++ [t])) k
            = mapFind p.m_line_tokens k)) := by
  refine ⟨?_, ?_, ?_⟩
  · intro name hname
    refine ⟨?_, ?_, ?_⟩
    · unfold StoreParsePolicy.handle_column_end
      rw [hname]
    · rw [mapFind_assign]
      simp
    · intro k hk
      rw [mapFind_assign, if_neg (fun h => hk h.symm)]
  · intro h1 h9
    interval_cases n <;> rfl
  · intro h10 hg
    refine ⟨?_, ?_, ?_⟩
    · unfold StoreParsePolicy.handle_column_end
      rw [fixedColName_eq_none h10]
      simp only [hg]
      rfl
    · rw [mapFind_assign]
      simp
    · intro k hk
      rw [mapFind_assign, if_neg (fun h => hk h.symm)]

/-- Witness for C6 at index 2 (a fixed column: POS) and index 10 (a sample
column with one prior sample collected). -/
theorem column_end_routing_witness :
    colFixedPolicy.handle_column_end 2
      = .ok { colFixedPolicy with
                m_line_tokens :=
                  mapAssign colFixedPolicy.m_line_tokens "POS" colFixedPolicy.m_grouped_tokens
                m_grouped_tokens := [] }
  ∧ mapFind (mapAssign colFixedPolicy.m_line_tokens "POS" colFixedPolicy.m_grouped_tokens) "POS"
      = some colFixedPolicy.m_grouped_tokens
  ∧ colSamplePolicy.handle_column_end 10
      = .ok { colSamplePolicy with
                m_line_tokens :=
                  mapAssign colSamplePolicy.m_line_tokens "SAMPLES"
                    (lineGet colSamplePolicy "SAMPLES" ++ ["0|0"])
                m_grouped_tokens := [] }
  ∧ lineGet colSamplePolicy "SAMPLES" ++ ["0|0"] = ["1|0", "0|0"] :=
  ⟨((column_end_routing 2 colFixedPolicy "").1 "POS" rfl).1,
   ((column_end_routing 2 colFixedPolicy "").1 "POS" rfl).2.1,
   ((column_end_routing 10 colSamplePolicy "0|0").2.2 (by decide) rfl).1,
   by decide⟩

/-- C7: the `MetaEntry` shape is chosen by the captured tokens: no type tag
gives Plain with the bare value; a type tag with exactly one value token
gives Scalar; a type tag with an even-length token group gives Structured
holding exactly the interleaved key/value pairs as a key-unique mapping in
which, on duplicate keys, the last written value wins (lookup agrees with
the last matching pair). -/
theorem meta_entry_shape_selection (p : StoreParsePolicy) (st : ParsingState)
    (v : String) :
    (p.m_line_typeid = "" → p.m_grouped_tokens = [v] →
        p.handle_meta_line st = .ok (st.add_meta (.plain v)))
  ∧ (p.m_line_typeid ≠ "" → p.m_grouped_tokens = [v] →
        p.handle_meta_line st = .ok (st.add_meta (.scalar p.m_line_typeid v)))
  ∧ (p.m_line_typeid ≠ "" → p.m_grouped_tokens.length % 2 = 0 →
        p.handle_meta_line st
          = .ok (st.add_meta (.structured p.m_line_typeid (buildKeyValues p.m_grouped_tokens)))
      ∧ ((buildKeyValues p.m_grouped_tokens).map Prod.fst).Nodup
      ∧ (∀ k, mapFind (buildKeyValues p.m_grouped_tokens) k
            = ((pairUp p.m_grouped_tokens).reverse.find? (fun kv => kv.1 == k)).map Prod.snd)) := by
  refine ⟨?_, ?_, ?_⟩
  · intro ht hg
    simp [StoreParsePolicy.handle_meta_line, ht, hg]
  · intro ht hg
    simp [StoreParsePolicy.handle_meta_line, ht, hg]
  · intro ht heven
    refine ⟨?_, ?_, ?_⟩
    · have h1 : p.m_grouped_tokens.length ≠ 1 := by omega
      simp [StoreParsePolicy.handle_meta_line, ht, h1, heven]
    · exact nodup_keys_assignFold (pairUp p.m_grouped_tokens) [] (by simp)
    · intro k
      have h := mapFind_assignFold (pairUp p.m_grouped_tokens) [] k
      simpa [buildKeyValues, mapFind, Option.or_none] using h

/-- Witness for C7: a plain, a scalar and a structured instance, the
structured one writing key `k` twice so that the later value `v2` wins. -/
theorem meta_entry_shape_selection_witness :
    metaPlainPolicy.handle_meta_line initState
      = .ok (initState.add_meta (.plain "pipeline-v1"))
  ∧ metaScalarPolicy.handle_meta_line initState
      = .ok (initState.add_meta (.scalar "source" "1kg"))
  ∧ metaStructPolicy.handle_meta_line initState
      = .ok (initState.add_meta (.structured "INFO" (buildKeyValues ["k", "v1", "k", "v2"])))
  ∧ mapFind (buildKeyValues ["k", "v1", "k", "v2"]) "k" = some "v2"
  ∧ buildKeyValues ["k", "v1", "k", "v2"] = [("k", "v2")] :=
  ⟨(meta_entry_shape_selection metaPlainPolicy initState "pipeline-v1").1 rfl rfl,
   (meta_entry_shape_selection metaScalarPolicy initState "1kg").2.1 (by decide) rfl,
   ((meta_entry_shape_selection metaStructPolicy initState "").2.2 (by decide) (by decide)).1,
   by decide, by decide⟩

theorem feedChars_append (e : Engine) (a b : List Char) :
    e.feedChars (a ++ b) = (e.feedChars a).feedChars b := by
  simp [Engine.feedChars, List.foldl_append]

theorem join_data (l : List String) :
    (String.join l).data = (l.map String.data).flatten := by
  have key : ∀ (l2 : List String) (acc : String),
      (l2.foldl (fun r s => r ++ s) acc).data
        = acc.data ++ (l2.map String.data).flatten := by
    intro l2
    induction l2 with
    | nil => intro acc; simp
    | cons s rest ih => intro acc; simp [ih]
  simp [String.join, key l ""]

/-- C8: feeding a document to the parser as any sequence of chunks followed
by the end-of-input call yields exactly the same `Source` contents, record
sequence and validity as feeding it whole: the machine is a per-character
transition whose entire state is preserved across chunk boundaries. -/
theorem chunked_parse_eq_whole_parse (chunks : List String) :
    (runChunks chunks).st.source = (runChunks [String.join chunks]).st.source
  ∧ (runChunks chunks).st.records = (runChunks [String.join chunks]).st.records
  ∧ (runChunks chunks).st.m_is_valid = (runChunks [String.join chunks]).st.m_is_valid := by
  have key : ∀ (l : List String) (e : Engine),
      l.foldl Engine.parse e = e.feedChars ((l.map String.data).flatten) := by
    intro l
    induction l with
    | nil => intro e; rfl
    | cons s rest ih =>
      intro e
      simp only [List.foldl_cons, List.map_cons, List.flatten_cons]
      rw [ih, feedChars_append]
      rfl
  have h : runChunks chunks = runChunks [String.join chunks] := by
    unfold runChunks
    rw [key, key]
    simp [join_data]
  rw [h]
  exact ⟨rfl, rfl, rfl⟩

end VcfValidator
